import Mathlib

/-!
Verification of the deep-research pipeline of `degen-doggo-digs`
(`src/services/DeepResearchDegen.js`, second revision in the snapshot, together
with its collaborators `CostTracker`, `EnhancedSearchService` and
`PipelineService`).  Each JavaScript/TypeScript function relevant to the
checked properties is shallowly embedded as an executable Lean definition;
the theorems at the end of the file settle the specification claims.

Modelling conventions:
* JS strings are Lean `String`s; `String.length` counts code points where JS
  counts UTF-16 units — identical on the ASCII data used throughout.
* JS numbers are embedded as `ℚ` where fractional arithmetic matters
  (quality scores, budgets) and as `Nat` for counts and indices.
* `async` calls to external providers (Tavily search, OpenAI) are oracles:
  the search provider is a function `String → List Source` giving the results
  of one query, the LLM provider is a function `Nat → Except LLMError
  LLMResponse` giving the outcome of the n-th provider invocation of a run.
  Timing, logging and artificial delays have no influence on data flow and
  are not modelled.
-/

namespace DegenDoggo

/-- A retrieved document `{ title, url, content }` (`SearchSource` in
`EnhancedSearchService.ts`). -/
structure Source where
  title : String
  url : String
  content : String
deriving DecidableEq, Repr

/-!
String primitives.  Lean's built-in `String.splitOn`, `String.toLower`,
`String.endsWith`, … are compiled by well-founded recursion and do not
reduce inside the kernel, so the JS string operations are implemented
structurally on the character list (`String.data`); on the ASCII data of
this program they agree with the JS originals. -/

/-- JS `toLowerCase()` (ASCII). -/
def lowerStr (s : String) : String :=
  String.mk (s.data.map Char.toLower)

/-- JS `startsWith(pat)`. -/
def strStartsWith (s pat : String) : Bool :=
  decide (s.data.take pat.data.length = pat.data)

/-- JS `substring(0, n)` / truncation to the first `n` characters. -/
def jsSubstring (s : String) (n : Nat) : String :=
  String.mk (s.data.take n)

/-- `split(sep)` on character lists: scan left to right, emitting the piece
collected so far whenever `sep` occurs (non-overlapping, leftmost).  `fuel`
starts above the input length; every step consumes at least one
character. -/
def splitOnCharsAux (sep : List Char) : Nat → List Char → List Char → List (List Char)
  | _, [], cur => [cur.reverse]
  | 0, cs, cur => [cur.reverse ++ cs]
  | fuel + 1, c :: rest, cur =>
    if (c :: rest).take sep.length = sep then
      cur.reverse :: splitOnCharsAux sep fuel ((c :: rest).drop sep.length) []
    else
      splitOnCharsAux sep fuel rest (c :: cur)

/-- JS `split(sep)` for a non-empty string separator. -/
def splitOnChars (sep cs : List Char) : List (List Char) :=
  splitOnCharsAux sep (cs.length + 1) cs []

/-- JS `String.prototype.includes` for a non-empty pattern: `p` occurs in `s`
iff splitting `s` on `p` yields more than one piece. -/
def jsIncludes (s pat : String) : Bool :=
  (splitOnChars pat.data s.data).length > 1

/-- The fixed suffix table of `expandQueries` (`DeepResearchDegen.js`). -/
def suffixes : List String :=
  [ "crypto token analysis"
  , "blockchain project review"
  , "tokenomics breakdown"
  , "team funding investors"
  , "price prediction analysis"
  , "community social media"
  , "smart contract audit"
  , "roadmap development" ]

/-- `expandQueries(baseTerms, variationCount)` from `DeepResearchDegen.js`:
for each base term, push the term itself and then `term + " " + suffixes[i]`
for `i < variationCount && i < suffixes.length`. -/
def expandQueries (baseTerms : List String) (variationCount : Nat) : List String :=
  baseTerms.flatMap fun term =>
    term :: (suffixes.take variationCount).map (fun s => term ++ " " ++ s)

/-- JS first-occurrence replacement `str.replace(pat, repl)` with a plain
string pattern (replaces only the first occurrence, unlike
`String.replace`). -/
def jsReplaceFirst (s pat repl : String) : String :=
  match splitOnChars pat.data s.data with
  | [] => s
  | [_] => s
  | x :: rest => String.mk (x ++ repl.data ++ List.intercalate pat.data rest)

/-- `expandQueries` from `DeepResearchDegen.ts`: per term, a fixed table of
eight rewritten/suffixed variants, of which the first `variationCount` are
kept; the original terms are prepended to the collected expansions. -/
def expandQueriesTS (baseTerms : List String) (variationCount : Nat) : List String :=
  let expansions := baseTerms.flatMap fun term =>
    ([ jsReplaceFirst term "crypto" "cryptocurrency"
     , jsReplaceFirst term "blockchain" "distributed ledger"
     , jsReplaceFirst term "tokenomics" "token economics"
     , jsReplaceFirst term "DeFi" "decentralized finance"
     , "\"" ++ term ++ "\""
     , term ++ " review"
     , term ++ " analysis 2024"
     , term ++ " news latest" ].take variationCount)
  baseTerms ++ expansions

/-- URL normalisation used by `deduplicateSources`:
`source.url.toLowerCase().replace(/\/$/, '')` — lower-case, then strip one
trailing slash. -/
def normalizeUrl (u : String) : String :=
  let l := (lowerStr u).data
  String.mk (match l.reverse with
             | '/' :: rest => rest.reverse
             | _ => l)

/-- Title key used by `deduplicateSources`:
`source.title.toLowerCase().split(' ').slice(0, 5).join(' ')`. -/
def titleKey (t : String) : String :=
  String.mk (List.intercalate [' '] ((splitOnChars [' '] (lowerStr t).data).take 5))

/-- One `Map.set` update of the title-similarity map (the key is known to be
present). -/
def setTitle (tmap : List (String × Source)) (k : String) (s : Source) :
    List (String × Source) :=
  tmap.map fun p => if p.1 = k then (k, s) else p

/-- The stateful `filter` body of `deduplicateSources` (`DeepResearchDegen.js`):
`seen` is the set of already-added normalised URLs, `tmap` the
title-similarity map.  A source whose normalised URL was seen is dropped;
otherwise its URL is recorded and, on a title-key collision with a source of
at least its content length, it is dropped as well (the map entry is updated
to the longer source when kept). -/
def dedupGo : List Source → List String → List (String × Source) → List Source
  | [], _, _ => []
  | s :: rest, seen, tmap =>
    let nu := normalizeUrl s.url
    if nu ∈ seen then
      dedupGo rest seen tmap
    else
      let tk := titleKey s.title
      match tmap.lookup tk with
      | some existing =>
        if s.content.length ≤ existing.content.length then
          dedupGo rest (nu :: seen) tmap
        else
          s :: dedupGo rest (nu :: seen) (setTitle tmap tk s)
      | none => s :: dedupGo rest (nu :: seen) ((tk, s) :: tmap)

/-- `deduplicateSources(sources)` from `DeepResearchDegen.js`. -/
def deduplicateSources (sources : List Source) : List Source :=
  dedupGo sources [] []

/-! ## Quality scoring and tiering (`processAndScoreSources`, `generateAIReport`) -/

/-- A source enriched by `processAndScoreSources`: the spread `{...source}`
plus `qualityScore` and `cleanedContent`. -/
structure ScoredSource where
  title : String
  url : String
  content : String
  qualityScore : ℚ
  cleanedContent : String
deriving DecidableEq, Repr

/-- JS `\s` on the ASCII range (the only characters occurring in the data). -/
def isWsChar (c : Char) : Bool :=
  c = ' ' || c = '\t' || c = '\n' || c = '\r' || c = '\x0b' || c = '\x0c'

/-- JS `\w`: letters, digits and underscore. -/
def isWordChar (c : Char) : Bool :=
  c.isAlphanum || c = '_'

/-- `content.replace(/\s+/g, ' ')`: each maximal whitespace run becomes a
single space. -/
def collapseWs : List Char → List Char
  | [] => []
  | c :: rest =>
    if isWsChar c then ' ' :: collapseWs (rest.dropWhile fun d => isWsChar d)
    else c :: collapseWs rest
termination_by l => l.length
decreasing_by
  · have := (List.dropWhile_sublist (l := rest) fun d => isWsChar d).length_le
    simp only [List.length_cons]
    omega
  · simp only [List.length_cons]
    omega

/-- Characters kept by `content.replace(/[^\w\s.,!?;:-]/g, '')`. -/
def keepClean (c : Char) : Bool :=
  isWordChar c || isWsChar c ||
    (c = '.' || c = ',' || c = '!' || c = '?' || c = ';' || c = ':' || c = '-')

/-- JS `trim()`: strip leading and trailing whitespace. -/
def trimWs (cs : List Char) : List Char :=
  ((cs.dropWhile isWsChar).reverse.dropWhile isWsChar).reverse

/-- `cleanContent(content)` from `DeepResearchDegen.js`: collapse whitespace,
drop characters outside the safe set, trim. -/
def cleanContent (content : String) : String :=
  String.mk (trimWs ((collapseWs content.data).filter keepClean))

/-- `calculateSourceQualityScore(source)` from `DeepResearchDegen.js`:
content-length points (≤ 40), title keywords (≤ 20), domain authority
(≤ 37 nominally, the comment says 20), body keywords (≤ 20), capped at
100. -/
def calculateSourceQualityScore (s : Source) : ℚ :=
  let lengthScore : ℚ := min ((s.content.length : ℚ) / 100) 40
  let titleWords := lowerStr s.title
  let titleScore : ℚ :=
    (if jsIncludes titleWords "analysis" || jsIncludes titleWords "review" then 10 else 0) +
    (if jsIncludes titleWords "report" || jsIncludes titleWords "research" then 10 else 0)
  let domain := lowerStr s.url
  let domainScore : ℚ :=
    (if jsIncludes domain "cointelegraph" || jsIncludes domain "coindesk" then 15 else 0) +
    (if jsIncludes domain "medium" || jsIncludes domain "substack" then 10 else 0) +
    (if jsIncludes domain "github" || jsIncludes domain "docs." then 12 else 0)
  let content := lowerStr s.content
  let contentScore : ℚ :=
    (if jsIncludes content "tokenomics" then 5 else 0) +
    (if jsIncludes content "whitepaper" then 5 else 0) +
    (if jsIncludes content "audit" then 5 else 0) +
    (if jsIncludes content "roadmap" then 5 else 0)
  min (lengthScore + titleScore + domainScore + contentScore) 100

/-- The descending comparator `(a, b) => b.qualityScore - a.qualityScore`
as a merge-sort order: `a` precedes `b` iff `b.qualityScore ≤
a.qualityScore`. -/
def scoreLE (a b : ScoredSource) : Bool :=
  decide (b.qualityScore ≤ a.qualityScore)

/-- `processAndScoreSources(sources)` from `DeepResearchDegen.js`: enrich
every source, then sort descending by quality score. -/
def processAndScoreSources (sources : List Source) : List ScoredSource :=
  (sources.map fun s =>
    { title := s.title
      url := s.url
      content := s.content
      qualityScore := calculateSourceQualityScore s
      cleanedContent := cleanContent s.content }).mergeSort scoreLE

/-- JS `Array.prototype.slice(a, b)` (for `0 ≤ a ≤ b`). -/
def jsSlice (l : List α) (a b : Nat) : List α :=
  (l.take b).drop a

/-- The tier partition computed inside `generateAIReport`
(`DeepResearchDegen.js`): `tierSizes` from the processed-source count, then
three consecutive `slice`s — premium, standard, compressed. -/
def generateAIReportTiers (sources : List Source) :
    List ScoredSource × List ScoredSource × List ScoredSource :=
  let ps := processAndScoreSources sources
  let premium := min 15 ps.length
  let standard := min 40 (ps.length - 15)
  let compressed := min 100 (ps.length - 55)
  ( jsSlice ps 0 premium
  , jsSlice ps premium (premium + standard)
  , jsSlice ps (premium + standard) (premium + standard + compressed) )

/-! ## LLM boundary, `llmCall`, `PipelineService.analyzeStage` -/

/-- An error thrown by the LLM provider. -/
structure LLMError where
  message : String
  status : Option Nat
deriving DecidableEq, Repr

/-- A chat-completion response as consumed by `llmCall`
(`response.choices[0].message.content`). -/
structure LLMResponse where
  content : String
deriving DecidableEq, Repr

/-- Modelled from the spec: §4.1 classifies an error as rate-limit by
"HTTP 429, a rate-limit error code, or a rate-limit substring in the
message"; no such classifier exists anywhere in the source. -/
def isRateLimitError (e : LLMError) : Bool :=
  e.status = some 429 || jsIncludes e.message.toLower "rate limit"

/-- `model.startsWith("o1") || model.startsWith("o3") || model.startsWith("o4")`
from `llmCall`. -/
def isReasoningModel (model : String) : Bool :=
  strStartsWith model "o1" || strStartsWith model "o3" || strStartsWith model "o4"

/-- Request parameters built by `llmCall`.  Both branches of the JS
conditional construct the same record (`max_completion_tokens`,
temperature 0.3). -/
structure LLMParams where
  model : String
  maxCompletionTokens : Nat
  temperature : ℚ
deriving DecidableEq, Repr

/-- The parameter object `llmCall` sends to the provider. -/
def llmCallParams (model : String) (tokens : Nat) : LLMParams :=
  if isReasoningModel model then
    { model := model, maxCompletionTokens := tokens, temperature := 3/10 }
  else
    { model := model, maxCompletionTokens := tokens, temperature := 3/10 }

instance {ε α : Type} [DecidableEq ε] [DecidableEq α] : DecidableEq (Except ε α) := fun x y =>
  match x, y with
  | .ok a, .ok b => if h : a = b then .isTrue (by rw [h]) else .isFalse (by simp [h])
  | .error a, .error b => if h : a = b then .isTrue (by rw [h]) else .isFalse (by simp [h])
  | .ok _, .error _ => .isFalse (by simp)
  | .error _, .ok _ => .isFalse (by simp)

/-- Observable outcome of one `llmCall`: the returned/raised value, how often
the wrapped provider operation was invoked, and the backoff delays (ms)
inserted between invocations. -/
structure LLMCallOutcome where
  result : Except LLMError String
  invocations : Nat
  backoffDelays : List Nat
deriving DecidableEq, Repr

/-- `llmCall(model, tokens, prompt)` from `DeepResearchDegen.js`, run against
an operation whose `n`-th invocation yields `behavior n`: one
`openai.chat.completions.create` call inside a `try` whose `catch` logs and
rethrows.  There is no retry loop and no backoff wait. -/
def llmCall (behavior : Nat → Except LLMError LLMResponse)
    (model : String) (tokens : Nat) (prompt : String) : LLMCallOutcome :=
  match behavior 0 with
  | .ok resp => { result := .ok resp.content, invocations := 1, backoffDelays := [] }
  | .error e => { result := .error e, invocations := 1, backoffDelays := [] }

/-- JS `x || dflt` for a possibly-missing string (`null`/`undefined`/`""` are
falsy). -/
def jsOrString (c : Option String) (dflt : String) : String :=
  match c with
  | some s => if s = "" then dflt else s
  | none => dflt

/-- `analyzeStage(sources)` of `PipelineService.ts`, viewed at its LLM
boundary: the completion call either throws (propagated) or yields
`choices[0]?.message?.content`, and the stage returns
`content || 'Analysis failed'`. -/
def analyzeStage (callResult : Except LLMError (Option String)) :
    Except LLMError String :=
  match callResult with
  | .error e => .error e
  | .ok c => .ok (jsOrString c "Analysis failed")

/-! ## Source summarization (`summarizeSources` / `summarizeBatch`) -/

/-- `targetSummaryLength` of `summarizeBatch`. -/
def targetSummaryLength (mode : String) : Nat :=
  if mode = "compressed" then 150 else 300

/-- Matches the regex alternative `Source \d+:` at the head of `cs`,
returning the match length. -/
def matchSourceTag (cs : List Char) : Option Nat :=
  if cs.take 7 = "Source ".data then
    let ds := (cs.drop 7).takeWhile Char.isDigit
    if 0 < ds.length then
      match (cs.drop 7).drop ds.length with
      | ':' :: _ => some (7 + ds.length + 1)
      | _ => none
    else none
  else none

/-- Matches the regex alternative `^\d+\.` (digits then a dot, at a line
start) at the head of `cs`, returning the match length. -/
def matchNumDot (cs : List Char) : Option Nat :=
  let ds := cs.takeWhile Char.isDigit
  if 0 < ds.length then
    match cs.drop ds.length with
    | '.' :: _ => some (ds.length + 1)
    | _ => none
  else none

/-- One step of matching `/Source \d+:|^\d+\./gm` at the current position. -/
def matchMarker (cs : List Char) (lineStart : Bool) : Option Nat :=
  match matchSourceTag cs with
  | some k => some k
  | none => if lineStart then matchNumDot cs else none

/-- Fuel-driven scan implementing `summaryText.split(/Source \d+:|^\d+\./gm)`:
pieces between matches are collected, matched text is removed.  `fuel`
starts above the character count; every step consumes at least one
character. -/
def splitMarkersAux : Nat → List Char → Bool → List Char → List String → List String
  | _, [], _, cur, acc => acc ++ [String.mk cur.reverse]
  | 0, cs, _, cur, acc => acc ++ [String.mk (cur.reverse ++ cs)]
  | fuel + 1, c :: rest, lineStart, cur, acc =>
    match matchMarker (c :: rest) lineStart with
    | some k =>
      splitMarkersAux fuel ((c :: rest).drop k) false [] (acc ++ [String.mk cur.reverse])
    | none => splitMarkersAux fuel rest (c = '\n') (c :: cur) acc

/-- `split(/Source \d+:|^\d+\./gm)` on a whole response. -/
def splitSummaryMarkers (s : String) : List String :=
  splitMarkersAux (s.data.length + 1) s.data true [] []

/-- The parsing step of `summarizeBatch`: split on source markers, drop the
leading piece, trim, and keep only pieces longer than 20 characters. -/
def parseSummaries (text : String) : List String :=
  (((splitSummaryMarkers text).drop 1).map fun s => String.mk (trimWs s.data)).filter
    fun s => 20 < s.length

/-- The placeholder pushed by `summarizeBatch` for a source without a parsed
summary. -/
def summaryPlaceholder (s : Source) : String :=
  "Summary not available for " ++ s.title

/-- The `while (summaries.length < sources.length)` loop of `summarizeBatch`:
append the placeholder of the source at index `summaries.length` until the
counts agree. -/
def fillMissing (sources : List Source) (summaries : List String) : List String :=
  if h : summaries.length < sources.length then
    fillMissing sources (summaries ++ [summaryPlaceholder (sources.get ⟨summaries.length, h⟩)])
  else summaries
termination_by sources.length - summaries.length
decreasing_by
  simp only [List.length_append, List.length_cons, List.length_nil]
  omega

/-- `summarizeBatch(sources, mode)` from `DeepResearchDegen.js`, given the
outcome of its single completion call: on success, parse, pad with
placeholders, and cut to the source count; on failure, fall back to
truncating each source's raw content to the target length (with an
ellipsis when content was cut). -/
def summarizeBatch (sources : List Source) (mode : String)
    (outcome : Except LLMError LLMResponse) : List String :=
  match outcome with
  | .ok resp =>
    (fillMissing sources (parseSummaries resp.content)).take sources.length
  | .error _ =>
    sources.map fun s =>
      jsSubstring s.content (targetSummaryLength mode) ++
        (if targetSummaryLength mode < s.content.length then "..." else "")

/-- The batching loop of `summarizeSources`: slices of `batchSize` are
summarized in order, the `n`-th batch consuming `llm n`.  The recursive
call advances by `batchSize = 1 + (batchSize - 1)` positions; `batchSize`
is 8 or 4 at both call sites, so this matches `i += batchSize`. -/
def summarizeLoop (llm : Nat → Except LLMError LLMResponse) (mode : String)
    (batchSize : Nat) : Nat → List Source → List String
  | _, [] => []
  | batchIdx, s :: rest =>
    summarizeBatch ((s :: rest).take batchSize) mode (llm batchIdx) ++
      summarizeLoop llm mode batchSize (batchIdx + 1) (rest.drop (batchSize - 1))
termination_by _ l => l.length
decreasing_by
  simp only [List.length_cons, List.length_drop]
  omega

/-- `summarizeSources(sources, mode)` from `DeepResearchDegen.js`: batch size
8 for `compressed` mode, else 4; one completion call per batch, summaries
concatenated. -/
def summarizeSources (llm : Nat → Except LLMError LLMResponse) (mode : String)
    (sources : List Source) : List String :=
  summarizeLoop llm mode (if mode = "compressed" then 8 else 4) 0 sources

/-! ## Cost tracker -/

/-- `CostTracker` (`CostTracker.js`): a daily budget and the accumulated
spend. -/
structure CostTracker where
  dailyBudget : ℚ
  currentSpend : ℚ
deriving DecidableEq, Repr

/-- A freshly constructed tracker (`dailyBudget = 10.0`, `currentSpend = 0`). -/
def CostTracker.init : CostTracker :=
  { dailyBudget := 10, currentSpend := 0 }

/-- `canAffordOperation(estimatedCost)` from `CostTracker.js`. -/
def CostTracker.canAffordOperation (ct : CostTracker) (estimatedCost : ℚ) : Bool :=
  decide (ct.currentSpend + estimatedCost * (1/1000) ≤ ct.dailyBudget)

/-- `trackCost(cost)` from `CostTracker.js`. -/
def CostTracker.trackCost (ct : CostTracker) (cost : ℚ) : CostTracker :=
  { ct with currentSpend := ct.currentSpend + cost }

/-- `getRemainingBudget()` from `CostTracker.js`. -/
def CostTracker.getRemainingBudget (ct : CostTracker) : ℚ :=
  max 0 (ct.dailyBudget - ct.currentSpend)

/-- Modelled from the spec: `runPipeline` reads `costTracker.getTotalCost()`,
a member the snapshot's `CostTracker` does not define; §5 of the spec
describes the tracker as a process-wide, monotonically-increasing cost
counter, so the total cost is the accumulated spend. -/
def CostTracker.getTotalCost (ct : CostTracker) : ℚ :=
  ct.currentSpend

/-! ## Multi-stage source gathering -/

/-- The research request handed to `runPipeline`. -/
structure ProjectInput where
  projectName : String
  website : Option String
  twitter : Option String
  contractAddress : Option String
deriving DecidableEq, Repr

/-- `website.replace(/^https?:\/\//, '')`. -/
def stripProtocol (w : String) : String :=
  if strStartsWith w "https://" then String.mk (w.data.drop 8)
  else if strStartsWith w "http://" then String.mk (w.data.drop 7)
  else w

/-- JS truthiness of an optional string field (absent and `""` are falsy). -/
def jsTruthy (o : Option String) : Bool :=
  match o with
  | some s => !(s = "")
  | none => false

/-- The base terms of stage 1 of `fetchSourcesMultiStage`
(`DeepResearchDegen.js`), including the conditional website/twitter
terms. -/
def baseTerms (input : ProjectInput) : List String :=
  let pn := input.projectName
  [pn, pn ++ " crypto", pn ++ " token", pn ++ " blockchain"] ++
    (match input.website with
     | some w => if w = "" then [] else ["site:" ++ stripProtocol w]
     | none => []) ++
    (if jsTruthy input.twitter then ["site:twitter.com " ++ pn] else [])

/-- Stage-2 base terms of `fetchSourcesMultiStage`. -/
def deepTerms (input : ProjectInput) : List String :=
  let pn := input.projectName
  [ pn ++ " team founders CEO"
  , pn ++ " tokenomics supply distribution"
  , pn ++ " roadmap development milestones"
  , pn ++ " partnerships investors funding"
  , pn ++ " use case utility value proposition"
  , pn ++ " competition comparison analysis" ]

/-- Stage-3 base terms of `fetchSourcesMultiStage`. -/
def marketTerms (input : ProjectInput) : List String :=
  let pn := input.projectName
  [ pn ++ " price prediction market cap"
  , pn ++ " community social telegram discord"
  , pn ++ " smart contract security audit"
  , pn ++ " airdrop rewards incentives"
  , pn ++ " listing exchange trading volume" ]

/-- Stage-4 (risk) queries of `fetchSourcesMultiStage` (not expanded). -/
def riskQueries (input : ProjectInput) : List String :=
  let pn := input.projectName
  [ pn ++ " risks concerns red flags"
  , pn ++ " technical implementation architecture"
  , pn ++ " regulatory compliance legal"
  , pn ++ " news updates recent developments"
  , "\"" ++ pn ++ "\" review analysis report" ]

/-- Stage-1 query list: `expandQueries(baseTerms, 3).slice(0,
ENHANCED_SEARCH_STRATEGY.base)` with `base = 15`. -/
def stage1Queries (input : ProjectInput) : List String :=
  (expandQueries (baseTerms input) 3).take 15

/-- Stage-2 query list (`deep = 20`). -/
def stage2Queries (input : ProjectInput) : List String :=
  (expandQueries (deepTerms input) 3).take 20

/-- Stage-3 query list (`final = 15`). -/
def stage3Queries (input : ProjectInput) : List String :=
  (expandQueries (marketTerms input) 2).take 15

/-- Stage-4 query list (`targeted = 10`). -/
def stage4Queries (input : ProjectInput) : List String :=
  (riskQueries input).take 10

/-- The URL-exact first-occurrence filter of
`EnhancedSearchService.searchEnhanced`
(`filter((r, i, self) => i === self.findIndex(r2 => r2.url === r.url))`). -/
def keepFirstByUrl : List Source → List String → List Source
  | [], _ => []
  | s :: rest, seen =>
    if s.url ∈ seen then keepFirstByUrl rest seen
    else s :: keepFirstByUrl rest (s.url :: seen)

/-- `searchEnhanced(queries, options)` of `EnhancedSearchService.ts` run
against a search oracle: at most the first 10 queries are issued
sequentially, results concatenated, then URL-deduplicated; also returns
the number of provider queries issued. -/
def searchEnhanced (search : String → List Source) (queries : List String) :
    List Source × Nat :=
  (keepFirstByUrl ((queries.take 10).flatMap search) [], (queries.take 10).length)

/-- `fetchSourcesMultiStage(input)` from `DeepResearchDegen.js`: four staged
`searchEnhanced` calls, concatenated and passed through
`deduplicateSources`; also returns the total provider-query count. -/
def fetchSourcesMultiStage (search : String → List Source) (input : ProjectInput) :
    List Source × Nat :=
  let r1 := searchEnhanced search (stage1Queries input)
  let r2 := searchEnhanced search (stage2Queries input)
  let r3 := searchEnhanced search (stage3Queries input)
  let r4 := searchEnhanced search (stage4Queries input)
  (deduplicateSources (r1.1 ++ r2.1 ++ r3.1 ++ r4.1), r1.2 + r2.2 + r3.2 + r4.2)

/-- All provider queries a run can issue during source gathering
(each stage's list is cut to 10 inside `searchEnhanced`). -/
def issuedQueries (input : ProjectInput) : List String :=
  (stage1Queries input).take 10 ++ (stage2Queries input).take 10 ++
    (stage3Queries input).take 10 ++ (stage4Queries input).take 10

/-! ## The six-stage pipeline (`runPipeline`) -/

/-- The external world of one run: the search provider (results of one
query) and the LLM provider (outcome of the `n`-th completion call of the
run, counted in issue order). -/
structure Env where
  search : String → List Source
  llm : Nat → Except LLMError LLMResponse

/-- A source after the content-extraction stage: the spread `{...src}` plus
`summary` and `extracted`. -/
structure ExtractedSource where
  title : String
  url : String
  content : String
  summary : String
  extracted : Bool
deriving DecidableEq, Repr

/-- `response.choices[0].message.content` of one completion call, with
provider errors propagated (`llmCall`'s body). -/
def llmContent (o : Except LLMError LLMResponse) : Except LLMError String :=
  match o with
  | .ok r => .ok r.content
  | .error e => .error e

/-- One iteration of the extraction stage of `runPipeline`: a successful
`llmCall` yields `{...src, summary, extracted: true}`; a failure is caught
and yields `{...src, summary: src.content.substring(0, 300), extracted:
false}`. -/
def extractOne (outcome : Except LLMError LLMResponse) (s : Source) : ExtractedSource :=
  match outcome with
  | .ok r => { title := s.title, url := s.url, content := s.content
               summary := r.content, extracted := true }
  | .error _ => { title := s.title, url := s.url, content := s.content
                  summary := jsSubstring s.content 300, extracted := false }

/-- The extraction stage over a source list, the `i`-th source consuming the
`base + i`-th completion call of the run (per-source failures are
tolerated, so the stage itself never throws). -/
def extractStage (llm : Nat → Except LLMError LLMResponse) :
    Nat → List Source → List ExtractedSource
  | _, [] => []
  | i, s :: rest => extractOne (llm i) s :: extractStage llm (i + 1) rest

/-- The deduplicated source list a run gathers. -/
def pipelineSources (env : Env) (input : ProjectInput) : List Source :=
  (fetchSourcesMultiStage env.search input).1

/-- The number of provider search queries a run issues. -/
def pipelineSearchCount (env : Env) (input : ProjectInput) : Nat :=
  (fetchSourcesMultiStage env.search input).2

/-- The slice of gathered sources handed to the extraction stage:
`runPipeline` iterates `i` from 0 below `Math.min(sources.length, 50)` in
batches of 10, i.e. over exactly the first 50 sources. -/
def extractionInput (env : Env) (input : ProjectInput) : List Source :=
  (pipelineSources env input).take 50

/-- The full `extractedSources` list of a run. -/
def extractedAll (env : Env) (input : ProjectInput) : List ExtractedSource :=
  extractStage env.llm 0 (extractionInput env input)

/-- Observable side effects of one run: how often the cost tracker was
consulted, how many provider search queries were issued, and the pipeline
stage name of every LLM completion call, in order. -/
structure Trace where
  costChecks : Nat
  searches : Nat
  llmStageCalls : List String
deriving DecidableEq, Repr

/-- The constant `confidenceScore: 0.85` of the returned report, written as
an explicit reduced fraction 17/20 (a structure literal, so that kernel
evaluation does not need rational normalisation). -/
def confidence085 : ℚ := ⟨17, 20, by norm_num, by norm_num⟩

/-- `metadata.validation` of the returned report. -/
structure ValidationMeta where
  report : String
  passed : Bool
deriving DecidableEq, Repr

/-- The metadata bag of the returned report (fields relevant to data flow;
timestamps and debug logs are observational only). -/
structure ReportMetadata where
  sourcesAnalyzed : Nat
  validation : ValidationMeta
  confidenceScore : ℚ
deriving DecidableEq, Repr

/-- The terminal artifact of `runPipeline`. -/
structure ResearchReport where
  report : String
  sources : List ExtractedSource
  metadata : ReportMetadata
deriving DecidableEq, Repr

/-- `runPipeline(input)` from `DeepResearchDegen.js` (the `generateReport`
entry point): cost check, source gathering, extraction, then the four
sequential completion calls (synthesis, speculation, final report,
validation).  Errors thrown anywhere are caught by the surrounding `try`
and rethrown as `Pipeline failed: <message>`.  The pair's second component
is the run's trace. -/
def runPipeline (env : Env) (ct : CostTracker) (input : ProjectInput) :
    Except String ResearchReport × Trace :=
  if 50 < ct.getTotalCost then
    (.error "Pipeline failed: Cost limit exceeded",
     { costChecks := 1, searches := 0, llmStageCalls := [] })
  else if (pipelineSources env input).isEmpty then
    (.error "Pipeline failed: No sources found for the given input",
     { costChecks := 1, searches := pipelineSearchCount env input, llmStageCalls := [] })
  else
    match llmContent (env.llm (extractionInput env input).length) with
    | .error e =>
      (.error ("Pipeline failed: " ++ e.message),
       { costChecks := 1, searches := pipelineSearchCount env input
         llmStageCalls :=
           List.replicate (extractionInput env input).length "extraction" ++ ["synthesis"] })
    | .ok _synthesis =>
      match llmContent (env.llm ((extractionInput env input).length + 1)) with
      | .error e =>
        (.error ("Pipeline failed: " ++ e.message),
         { costChecks := 1, searches := pipelineSearchCount env input
           llmStageCalls :=
             List.replicate (extractionInput env input).length "extraction" ++
               ["synthesis", "speculation"] })
      | .ok _speculation =>
        match llmContent (env.llm ((extractionInput env input).length + 2)) with
        | .error e =>
          (.error ("Pipeline failed: " ++ e.message),
           { costChecks := 1, searches := pipelineSearchCount env input
             llmStageCalls :=
               List.replicate (extractionInput env input).length "extraction" ++
                 ["synthesis", "speculation", "finalReport"] })
        | .ok finalReport =>
          match llmContent (env.llm ((extractionInput env input).length + 3)) with
          | .error e =>
            (.error ("Pipeline failed: " ++ e.message),
             { costChecks := 1, searches := pipelineSearchCount env input
               llmStageCalls :=
                 List.replicate (extractionInput env input).length "extraction" ++
                   ["synthesis", "speculation", "finalReport", "validation"] })
          | .ok validation =>
            (.ok { report := finalReport
                   sources := (extractedAll env input).take 25
                   metadata :=
                     { sourcesAnalyzed := (extractedAll env input).length
                       validation :=
                         { report := validation
                           passed := !(jsIncludes (lowerStr validation) "critical") }
                       confidenceScore := confidence085 } },
             { costChecks := 1, searches := pipelineSearchCount env input
               llmStageCalls :=
                 List.replicate (extractionInput env input).length "extraction" ++
                   ["synthesis", "speculation", "finalReport", "validation"] })

/-! ## Concrete data for witnesses and counterexamples -/

/-- Two sources whose URLs normalise identically; the later one has the
longer content. -/
def dupA : Source :=
  { title := "alpha page", url := "https://Example.com/page", content := "ab" }

/-- See `dupA`. -/
def dupB : Source :=
  { title := "beta page", url := "https://example.com/page/", content := "abcdef" }

/-- A sample retrieved document. -/
def src0 : Source :=
  { title := "Doggo overview", url := "https://example.com/doggo"
    content := "Doggo is a memecoin with tokenomics and roadmap." }

/-- A second sample document with high-scoring markers. -/
def src1 : Source :=
  { title := "Doggo analysis report", url := "https://cointelegraph.com/doggo"
    content := "tokenomics whitepaper audit roadmap" }

/-- A minimal research request. -/
def input0 : ProjectInput :=
  { projectName := "Doggo", website := none, twitter := none, contractAddress := none }

/-- A fresh cost tracker (spend 0). -/
def ct0 : CostTracker := CostTracker.init

/-- A tracker whose accumulated spend exceeds the pipeline's 50 cut-off. -/
def ctOver : CostTracker := { dailyBudget := 10, currentSpend := 51 }

/-- A rate-limit-shaped provider error (HTTP 429 and a rate-limit message). -/
def rateLimitErr : LLMError :=
  { message := "429: Rate limit exceeded, please retry", status := some 429 }

/-- An operation that fails with `rateLimitErr` on its first invocation and
succeeds from the second on. -/
def flakyOnce : Nat → Except LLMError LLMResponse := fun n =>
  if n = 0 then .error rateLimitErr else .ok { content := "recovered" }

/-- A world in which every search query finds `src0` and the validation call
(the fifth completion of the run) returns a FAIL verdict. -/
def envFailVerdict : Env :=
  { search := fun _ => [src0]
    llm := fun i => .ok { content := if i = 4 then "Critical gaps: sections missing" else "stage output" } }

/-- A world in which every search query finds `src0` and every completion
call succeeds with a fixed PASS-shaped text. -/
def envHappy : Env :=
  { search := fun _ => [src0], llm := fun _ => .ok { content := "ok text" } }

/-- A world in which every search query returns nothing. -/
def envNoSources : Env :=
  { search := fun _ => [], llm := fun _ => .ok { content := "unused" } }

/-- The report `runPipeline` produces in `envHappy` on `input0`. -/
def happyReport : ResearchReport :=
  { report := "ok text"
    sources := [{ title := src0.title, url := src0.url, content := src0.content
                  summary := "ok text", extracted := true }]
    metadata :=
      { sourcesAnalyzed := 1
        validation := { report := "ok text", passed := true }
        confidenceScore := confidence085 } }

/-- The trace of the `envHappy` run on `input0`. -/
def happyTrace : Trace :=
  { costChecks := 1, searches := 35
    llmStageCalls := ["extraction", "synthesis", "speculation", "finalReport", "validation"] }

/-- Sixteen identical sources: enough to populate both the premium and the
standard tier. -/
def srcs16 : List Source := List.replicate 16 src0

/-- `src0` as scored by `processAndScoreSources`. -/
def scored0 : ScoredSource :=
  { title := src0.title, url := src0.url, content := src0.content
    qualityScore := calculateSourceQualityScore src0
    cleanedContent := cleanContent src0.content }

/-- A summarization response that parses into one summary (the second piece
is too short and is filtered out). -/
def respOneSummary : LLMResponse :=
  { content := "Source 1: aaaaaaaaaaaaaaaaaaaaaaaaa\nSource 2: b" }

end DegenDoggo

namespace DegenDoggo

/-! ## Helper lemmas -/

theorem expandQueries_cons (t : String) (ts : List String) (v : Nat) :
    expandQueries (t :: ts) v =
      (t :: (suffixes.take v).map (fun s => t ++ " " ++ s)) ++ expandQueries ts v := by
  simp [expandQueries]

theorem expandQueries_length (terms : List String) (v : Nat) :
    (expandQueries terms v).length = terms.length * (1 + min v 8) := by
  induction terms with
  | nil => simp [expandQueries]
  | cons t ts ih =>
    rw [expandQueries_cons]
    simp only [List.length_append, List.length_cons, List.length_map, List.length_take, ih]
    have h8 : suffixes.length = 8 := rfl
    rw [h8, Nat.add_mul, Nat.one_mul]
    omega

theorem mem_expandQueries {t : String} {terms : List String} (v : Nat)
    (ht : t ∈ terms) : t ∈ expandQueries terms v := by
  induction terms with
  | nil => cases ht
  | cons a ts ih =>
    rw [expandQueries_cons]
    rcases List.mem_cons.mp ht with rfl | h
    · exact List.mem_append_left _ (List.mem_cons_self _ _)
    · exact List.mem_append_right _ (ih h)

theorem flatMap_const_length {α β : Type} (f : α → List β) (k : Nat)
    (hf : ∀ t, (f t).length = k) : ∀ ts : List α, (ts.flatMap f).length = ts.length * k := by
  intro ts
  induction ts with
  | nil => simp
  | cons t ts ih =>
    rw [List.flatMap_cons]
    simp only [List.length_append, ih, hf, List.length_cons]
    rw [Nat.add_mul, Nat.one_mul]
    omega

theorem expandQueriesTS_length (terms : List String) (v : Nat) :
    (expandQueriesTS terms v).length = terms.length * (1 + min v 8) := by
  simp only [expandQueriesTS, List.length_append]
  rw [flatMap_const_length _ (min v 8) (fun t => by
    simp only [List.length_take, List.length_cons, List.length_nil]) terms]
  rw [Nat.mul_add, Nat.mul_one]

theorem mem_expandQueriesTS {t : String} {terms : List String} (v : Nat)
    (ht : t ∈ terms) : t ∈ expandQueriesTS terms v :=
  List.mem_append_left _ ht

theorem dedupGo_not_mem_seen :
    ∀ (l : List Source) (seen : List String) (tmap : List (String × Source)) (e : Source),
      e ∈ dedupGo l seen tmap → normalizeUrl e.url ∉ seen := by
  intro l
  induction l with
  | nil =>
    intro seen tmap e he
    simp [dedupGo] at he
  | cons s rest ih =>
    intro seen tmap e he
    by_cases h1 : normalizeUrl s.url ∈ seen
    · simp only [dedupGo] at he
      rw [if_pos h1] at he
      exact ih _ _ _ he
    · simp only [dedupGo] at he
      rw [if_neg h1] at he
      cases hlk : List.lookup (titleKey s.title) tmap with
      | none =>
        rw [hlk] at he
        dsimp only at he
        rcases List.mem_cons.mp he with rfl | htl
        · exact h1
        · have hnm := ih _ _ _ htl
          exact fun hc => hnm (List.mem_cons_of_mem _ hc)
      | some existing =>
        rw [hlk] at he
        dsimp only at he
        by_cases h2 : s.content.length ≤ existing.content.length
        · rw [if_pos h2] at he
          have hnm := ih _ _ _ he
          exact fun hc => hnm (List.mem_cons_of_mem _ hc)
        · rw [if_neg h2] at he
          rcases List.mem_cons.mp he with rfl | htl
          · exact h1
          · have hnm := ih _ _ _ htl
            exact fun hc => hnm (List.mem_cons_of_mem _ hc)

theorem dedupGo_pairwise :
    ∀ (l : List Source) (seen : List String) (tmap : List (String × Source)),
      (dedupGo l seen tmap).Pairwise
        (fun a b => normalizeUrl a.url ≠ normalizeUrl b.url) := by
  intro l
  induction l with
  | nil =>
    intro seen tmap
    simp [dedupGo]
  | cons s rest ih =>
    intro seen tmap
    by_cases h1 : normalizeUrl s.url ∈ seen
    · simp only [dedupGo]
      rw [if_pos h1]
      exact ih _ _
    · simp only [dedupGo]
      rw [if_neg h1]
      cases hlk : List.lookup (titleKey s.title) tmap with
      | none =>
        dsimp only
        refine List.Pairwise.cons (fun y hy => ?_) (ih _ _)
        have := dedupGo_not_mem_seen _ _ _ _ hy
        intro hc
        exact this (hc ▸ List.mem_cons_self _ _)
      | some existing =>
        dsimp only
        by_cases h2 : s.content.length ≤ existing.content.length
        · rw [if_pos h2]
          exact ih _ _
        · rw [if_neg h2]
          refine List.Pairwise.cons (fun y hy => ?_) (ih _ _)
          have := dedupGo_not_mem_seen _ _ _ _ hy
          intro hc
          exact this (hc ▸ List.mem_cons_self _ _)

theorem dedupGo_find :
    ∀ (l : List Source) (seen : List String) (tmap : List (String × Source)) (e : Source),
      e ∈ dedupGo l seen tmap →
        l.find? (fun x => normalizeUrl x.url == normalizeUrl e.url) = some e := by
  intro l
  induction l with
  | nil =>
    intro seen tmap e he
    simp [dedupGo] at he
  | cons s rest ih =>
    intro seen tmap e he
    by_cases h1 : normalizeUrl s.url ∈ seen
    · simp only [dedupGo] at he
      rw [if_pos h1] at he
      have hne : normalizeUrl e.url ∉ seen := dedupGo_not_mem_seen _ _ _ _ he
      have hsne : ¬ (normalizeUrl s.url == normalizeUrl e.url) = true := by
        simp only [beq_iff_eq]
        intro hc
        exact hne (hc ▸ h1)
      rw [@List.find?_cons_of_neg _ (fun x => normalizeUrl x.url == normalizeUrl e.url) s rest hsne]
      exact ih _ _ _ he
    · simp only [dedupGo] at he
      rw [if_neg h1] at he
      cases hlk : List.lookup (titleKey s.title) tmap with
      | none =>
        rw [hlk] at he
        dsimp only at he
        rcases List.mem_cons.mp he with rfl | htl
        · exact List.find?_cons_of_pos _ (by simp)
        · have hne := dedupGo_not_mem_seen _ _ _ _ htl
          have hsne : ¬ (normalizeUrl s.url == normalizeUrl e.url) = true := by
            simp only [beq_iff_eq]
            intro hc
            exact hne (hc ▸ List.mem_cons_self _ _)
          rw [@List.find?_cons_of_neg _ (fun x => normalizeUrl x.url == normalizeUrl e.url) s rest hsne]
          exact ih _ _ _ htl
      | some existing =>
        rw [hlk] at he
        dsimp only at he
        by_cases h2 : s.content.length ≤ existing.content.length
        · rw [if_pos h2] at he
          have hne := dedupGo_not_mem_seen _ _ _ _ he
          have hsne : ¬ (normalizeUrl s.url == normalizeUrl e.url) = true := by
            simp only [beq_iff_eq]
            intro hc
            exact hne (hc ▸ List.mem_cons_self _ _)
          rw [@List.find?_cons_of_neg _ (fun x => normalizeUrl x.url == normalizeUrl e.url) s rest hsne]
          exact ih _ _ _ he
        · rw [if_neg h2] at he
          rcases List.mem_cons.mp he with rfl | htl
          · exact List.find?_cons_of_pos _ (by simp)
          · have hne := dedupGo_not_mem_seen _ _ _ _ htl
            have hsne : ¬ (normalizeUrl s.url == normalizeUrl e.url) = true := by
              simp only [beq_iff_eq]
              intro hc
              exact hne (hc ▸ List.mem_cons_self _ _)
            rw [@List.find?_cons_of_neg _ (fun x => normalizeUrl x.url == normalizeUrl e.url) s rest hsne]
            exact ih _ _ _ htl

/-! ## Claim theorems -/

/-- C7: `expandQueries` is a deterministic pure function (a Lean function of
its arguments): for every list of `n` base terms and every variation count
`v`, the output length lies between `n` and `n * (v + 1)`, and every base
term occurs unmodified in the output.  Both the `DeepResearchDegen.js`
implementation (`expandQueries`) and the `DeepResearchDegen.ts`
implementation (`expandQueriesTS`) satisfy the claim. -/
theorem expandQueries_spec (terms : List String) (v : Nat) :
    (terms.length ≤ (expandQueries terms v).length
      ∧ (expandQueries terms v).length ≤ terms.length * (v + 1)
      ∧ ∀ t ∈ terms, t ∈ expandQueries terms v)
    ∧ (terms.length ≤ (expandQueriesTS terms v).length
      ∧ (expandQueriesTS terms v).length ≤ terms.length * (v + 1)
      ∧ ∀ t ∈ terms, t ∈ expandQueriesTS terms v) := by
  have hlow : 1 ≤ 1 + min v 8 := by omega
  have hhigh : 1 + min v 8 ≤ v + 1 := by omega
  refine ⟨⟨?_, ?_, fun t ht => mem_expandQueries v ht⟩,
          ⟨?_, ?_, fun t ht => mem_expandQueriesTS v ht⟩⟩
  · rw [expandQueries_length]
    calc terms.length = terms.length * 1 := (Nat.mul_one _).symm
    _ ≤ terms.length * (1 + min v 8) := Nat.mul_le_mul_left _ hlow
  · rw [expandQueries_length]
    exact Nat.mul_le_mul_left _ hhigh
  · rw [expandQueriesTS_length]
    calc terms.length = terms.length * 1 := (Nat.mul_one _).symm
    _ ≤ terms.length * (1 + min v 8) := Nat.mul_le_mul_left _ hlow
  · rw [expandQueriesTS_length]
    exact Nat.mul_le_mul_left _ hhigh

/-- C7 witness: the theorem instantiated on a concrete term list. -/
theorem expandQueries_spec_witness :
    "doggo" ∈ expandQueries ["doggo", "doggo crypto"] 2
    ∧ (expandQueries ["doggo", "doggo crypto"] 2).length ≤ 2 * 3 :=
  ⟨(expandQueries_spec ["doggo", "doggo crypto"] 2).1.2.2 "doggo" (by decide),
   (expandQueries_spec ["doggo", "doggo crypto"] 2).1.2.1⟩

/-- C2 counterexample: two inputs with the same normalised URL where the
later entry has strictly longer content — `deduplicateSources` keeps the
first, shorter entry, so the output entry with that normalised URL is not
the one with the longer content string. -/
theorem deduplicateSources_counterexample :
    normalizeUrl dupA.url = normalizeUrl dupB.url
    ∧ dupA.content.length < dupB.content.length
    ∧ deduplicateSources [dupA, dupB] = [dupA] := by decide

/-- C2 (amended): for any input list, the output of `deduplicateSources`
never contains two entries with the same normalised URL, and every
retained entry is the *first* entry of the input carrying its normalised
URL (content length is not consulted for URL collisions). -/
theorem deduplicateSources_unique_first (sources : List Source) :
    (deduplicateSources sources).Pairwise
      (fun a b => normalizeUrl a.url ≠ normalizeUrl b.url)
    ∧ ∀ e ∈ deduplicateSources sources,
        sources.find? (fun x => normalizeUrl x.url == normalizeUrl e.url) = some e :=
  ⟨dedupGo_pairwise _ _ _, fun e he => dedupGo_find _ _ _ _ he⟩

/-- C2 witness: the amended theorem evaluated on the counterexample pair —
the retained entry is the first occurrence of the shared URL. -/
theorem deduplicateSources_unique_first_witness :
    [dupA, dupB].find? (fun x => normalizeUrl x.url == normalizeUrl dupA.url) = some dupA :=
  (deduplicateSources_unique_first [dupA, dupB]).2 dupA (by decide)

theorem scoreLE_trans' :
    ∀ a b c : ScoredSource, scoreLE a b = true → scoreLE b c = true → scoreLE a c = true := by
  intro a b c hab hbc
  simp only [scoreLE, decide_eq_true_eq] at hab hbc ⊢
  exact le_trans hbc hab

theorem scoreLE_total' : ∀ a b : ScoredSource, (scoreLE a b || scoreLE b a) = true := by
  intro a b
  simp only [scoreLE, Bool.or_eq_true, decide_eq_true_eq]
  exact (le_total b.qualityScore a.qualityScore).imp id id

theorem processAndScoreSources_sorted (sources : List Source) :
    (processAndScoreSources sources).Pairwise
      (fun a b => b.qualityScore ≤ a.qualityScore) := by
  have h := List.sorted_mergeSort scoreLE_trans' scoreLE_total'
    (sources.map fun s =>
      { title := s.title, url := s.url, content := s.content
        qualityScore := calculateSourceQualityScore s
        cleanedContent := cleanContent s.content })
  refine List.Pairwise.imp ?_ h
  intro a b hab
  simpa [scoreLE] using hab

theorem processAndScoreSources_length (sources : List Source) :
    (processAndScoreSources sources).length = sources.length := by
  simp [processAndScoreSources]

theorem take_take_drop_slices (l : List α) (p s c : Nat) :
    l.take p ++ ((l.drop p).take s ++ (l.drop (p + s)).take c) = l.take (p + s + c) := by
  rw [Nat.add_assoc, List.take_add, List.take_add, List.drop_drop]

theorem pairwise_replicate_self {r : α → α → Prop} {a : α} (h : r a a) :
    ∀ n, (List.replicate n a).Pairwise r := by
  intro n
  induction n with
  | zero => simp
  | succ n ih =>
    rw [List.replicate_succ]
    exact List.Pairwise.cons (fun b hb => (List.eq_of_mem_replicate hb) ▸ h) ih

/-- C6: for every source list, the premium/standard/compressed tiers of
`generateAIReport` are consecutive disjoint slices of the processed list
(their concatenation is an initial segment), each tier respects its cap
(15/40/100), the tier sizes sum to at most the number of sources, the
processed list is sorted descending by `qualityScore`, and every premium
source scores at least as high as every standard or compressed source. -/
theorem generateAIReportTiers_spec (sources : List Source) :
    (generateAIReportTiers sources).1 ++ (generateAIReportTiers sources).2.1
        ++ (generateAIReportTiers sources).2.2
      = (processAndScoreSources sources).take
          (min 15 (processAndScoreSources sources).length
            + min 40 ((processAndScoreSources sources).length - 15)
            + min 100 ((processAndScoreSources sources).length - 55))
    ∧ (generateAIReportTiers sources).1.length ≤ 15
    ∧ (generateAIReportTiers sources).2.1.length ≤ 40
    ∧ (generateAIReportTiers sources).2.2.length ≤ 100
    ∧ (generateAIReportTiers sources).1.length + (generateAIReportTiers sources).2.1.length
        + (generateAIReportTiers sources).2.2.length ≤ sources.length
    ∧ (processAndScoreSources sources).Pairwise
        (fun a b => b.qualityScore ≤ a.qualityScore)
    ∧ ∀ x ∈ (generateAIReportTiers sources).1,
        ∀ y ∈ (generateAIReportTiers sources).2.1 ++ (generateAIReportTiers sources).2.2,
          y.qualityScore ≤ x.qualityScore := by
  have hlen := processAndScoreSources_length sources
  set ps := processAndScoreSources sources with hps
  set p := min 15 ps.length with hp
  set s := min 40 (ps.length - 15) with hs
  set c := min 100 (ps.length - 55) with hc
  have h1 : (generateAIReportTiers sources).1 = ps.take p := by
    simp only [generateAIReportTiers, jsSlice, ← hps, ← hp, List.drop_zero]
  have h2 : (generateAIReportTiers sources).2.1 = (ps.drop p).take s := by
    simp only [generateAIReportTiers, jsSlice, ← hps, ← hp, ← hs, List.drop_take]
    congr 1
    omega
  have h3 : (generateAIReportTiers sources).2.2 = (ps.drop (p + s)).take c := by
    simp only [generateAIReportTiers, jsSlice, ← hps, ← hp, ← hs, ← hc, List.drop_take]
    congr 1
    omega
  have hsorted := processAndScoreSources_sorted sources
  rw [← hps] at hsorted
  refine ⟨?_, ?_, ?_, ?_, ?_, hsorted, ?_⟩
  · rw [h1, h2, h3, List.append_assoc, take_take_drop_slices]
  · rw [h1]
    simp only [List.length_take]
    omega
  · rw [h2]
    simp only [List.length_take]
    omega
  · rw [h3]
    simp only [List.length_take]
    omega
  · rw [h1, h2, h3]
    simp only [List.length_take, List.length_drop]
    omega
  · intro x hx y hy
    rw [h1] at hx
    have hy' : y ∈ ps.drop p := by
      rw [h2, h3] at hy
      rcases List.mem_append.mp hy with h | h
      · exact List.mem_of_mem_take h
      · have := List.mem_of_mem_take h
        rw [← List.drop_drop] at this
        exact List.mem_of_mem_drop this
    have hdecomp := List.take_append_drop p ps
    have hpw : (ps.take p ++ ps.drop p).Pairwise
        (fun a b => b.qualityScore ≤ a.qualityScore) := hdecomp.symm ▸ hsorted
    exact (List.pairwise_append.mp hpw).2.2 x hx y hy'


/-- C6 witness: sixteen identical sources put fifteen copies in the premium
tier and one in the standard tier; the theorem's quantified part is
discharged on the copy in each tier. -/
theorem generateAIReportTiers_spec_witness :
    (generateAIReportTiers srcs16).1.length ≤ 15
    ∧ scored0.qualityScore ≤ scored0.qualityScore := by
  have hps : processAndScoreSources srcs16 = List.replicate 16 scored0 := by
    unfold processAndScoreSources srcs16
    rw [List.map_replicate]
    exact List.mergeSort_of_sorted (pairwise_replicate_self (by simp [scoreLE]) 16)
  have ht : generateAIReportTiers srcs16 =
      (List.replicate 15 scored0, List.replicate 1 scored0, ([] : List ScoredSource)) := by
    simp only [generateAIReportTiers, hps, List.length_replicate, jsSlice]
    norm_num [List.take_replicate, List.drop_replicate]
  have h := generateAIReportTiers_spec srcs16
  refine ⟨h.2.1, ?_⟩
  refine h.2.2.2.2.2.2 scored0 ?_ scored0 ?_
  · rw [ht]
    simp [List.mem_replicate]
  · rw [ht]
    simp [List.mem_replicate]

theorem fillMissing_eq (sources : List Source) (summaries : List String) :
    fillMissing sources summaries =
      summaries ++ (sources.drop summaries.length).map summaryPlaceholder := by
  rw [fillMissing]
  by_cases h : summaries.length < sources.length
  · rw [dif_pos h]
    rw [fillMissing_eq sources
      (summaries ++ [summaryPlaceholder (sources.get ⟨summaries.length, h⟩)])]
    rw [List.length_append, List.drop_eq_getElem_cons h]
    simp only [List.length_cons, List.length_nil, List.map_cons, List.append_assoc,
      List.singleton_append, List.get_eq_getElem]
  · rw [dif_neg h]
    rw [List.drop_eq_nil_of_le (by omega)]
    simp
termination_by sources.length - summaries.length
decreasing_by
  simp only [List.length_append, List.length_cons, List.length_nil]
  omega

theorem summarizeBatch_length (sources : List Source) (mode : String)
    (outcome : Except LLMError LLMResponse) :
    (summarizeBatch sources mode outcome).length = sources.length := by
  cases outcome with
  | error e => simp [summarizeBatch]
  | ok resp =>
    simp only [summarizeBatch, fillMissing_eq, List.length_take, List.length_append,
      List.length_map, List.length_drop]
    omega

theorem summarizeBatch_ok_few (sources : List Source) (mode : String) (resp : LLMResponse)
    (h : (parseSummaries resp.content).length < sources.length) :
    summarizeBatch sources mode (.ok resp) =
      parseSummaries resp.content ++
        (sources.drop (parseSummaries resp.content).length).map summaryPlaceholder := by
  simp only [summarizeBatch, fillMissing_eq]
  apply List.take_of_length_le
  simp only [List.length_append, List.length_map, List.length_drop]
  omega

theorem summarizeBatch_ok_many (sources : List Source) (mode : String) (resp : LLMResponse)
    (h : sources.length ≤ (parseSummaries resp.content).length) :
    summarizeBatch sources mode (.ok resp) = (parseSummaries resp.content).take sources.length := by
  simp only [summarizeBatch, fillMissing_eq]
  rw [List.drop_eq_nil_of_le h]
  simp

theorem summarizeLoop_length (llm : Nat → Except LLMError LLMResponse) (mode : String)
    (bs : Nat) (hbs : 0 < bs) :
    ∀ (n : Nat) (sources : List Source), sources.length ≤ n →
      ∀ i, (summarizeLoop llm mode bs i sources).length = sources.length := by
  intro n
  induction n with
  | zero =>
    intro sources hs i
    have : sources = [] := List.eq_nil_of_length_eq_zero (by omega)
    subst this
    simp [summarizeLoop]
  | succ n ih =>
    intro sources hs i
    cases sources with
    | nil => simp [summarizeLoop]
    | cons s rest =>
      rw [summarizeLoop, List.length_append, summarizeBatch_length,
        ih (rest.drop (bs - 1)) (by simp only [List.length_drop]; simp at hs; omega) (i + 1)]
      simp only [List.length_take, List.length_drop, List.length_cons]
      omega

theorem summarizeSources_length (llm : Nat → Except LLMError LLMResponse) (mode : String)
    (sources : List Source) :
    (summarizeSources llm mode sources).length = sources.length := by
  have hbs : 0 < if mode = "compressed" then 8 else 4 := by
    by_cases h : mode = "compressed" <;> simp [h]
  exact summarizeLoop_length llm mode _ hbs sources.length sources (le_refl _) 0

/-- C8: a summarization batch always yields exactly one summary per input
source — on a successful completion call the parsed summaries are padded
with placeholders when too few and cut when too many, and on a failed call
the result is each source's raw content truncated to the mode's target
length (suffixed `...` when cut); consequently `summarizeSources` also
preserves the source count, so a summarization failure never aborts the
pipeline. -/
theorem summarizeBatch_spec (sources : List Source) (mode : String) :
    (∀ outcome, (summarizeBatch sources mode outcome).length = sources.length)
    ∧ (∀ e : LLMError, summarizeBatch sources mode (.error e) =
        sources.map fun s =>
          jsSubstring s.content (targetSummaryLength mode) ++
            (if targetSummaryLength mode < s.content.length then "..." else ""))
    ∧ (∀ resp : LLMResponse, (parseSummaries resp.content).length < sources.length →
        summarizeBatch sources mode (.ok resp) =
          parseSummaries resp.content ++
            (sources.drop (parseSummaries resp.content).length).map summaryPlaceholder)
    ∧ (∀ resp : LLMResponse, sources.length ≤ (parseSummaries resp.content).length →
        summarizeBatch sources mode (.ok resp) = (parseSummaries resp.content).take sources.length)
    ∧ ∀ llm, (summarizeSources llm mode sources).length = sources.length :=
  ⟨fun outcome => summarizeBatch_length sources mode outcome,
   fun _ => rfl,
   fun resp h => summarizeBatch_ok_few sources mode resp h,
   fun resp h => summarizeBatch_ok_many sources mode resp h,
   fun llm => summarizeSources_length llm mode sources⟩

/-- C8 witness: a two-source standard batch whose response parses into a
single summary — the second slot is filled with the placeholder. -/
theorem summarizeBatch_spec_witness :
    summarizeBatch [src0, src1] "standard" (.ok respOneSummary) =
      parseSummaries respOneSummary.content ++
        ([src0, src1].drop (parseSummaries respOneSummary.content).length).map
          summaryPlaceholder :=
  (summarizeBatch_spec [src0, src1] "standard").2.2.1 respOneSummary (by decide)


/-- C1 counterexample: an operation that fails with a rate-limit error
exactly once (`k = 1`) and then succeeds, under the default policy
(`retries = 5 > k`): the claim predicts the success value after exactly two
invocations with a backoff wait before the retry, but `llmCall` invokes the
operation once, inserts no delay, and propagates the rate-limit error. -/
theorem llmCall_retry_counterexample :
    isRateLimitError rateLimitErr = true
    ∧ (llmCall flakyOnce "gpt-4.1-2025-04-14" 500 "prompt").invocations = 1
    ∧ (llmCall flakyOnce "gpt-4.1-2025-04-14" 500 "prompt").backoffDelays = []
    ∧ (llmCall flakyOnce "gpt-4.1-2025-04-14" 500 "prompt").result = .error rateLimitErr
    ∧ ¬((llmCall flakyOnce "gpt-4.1-2025-04-14" 500 "prompt").result = .ok "recovered"
        ∧ (llmCall flakyOnce "gpt-4.1-2025-04-14" 500 "prompt").invocations = 2) := by
  decide

/-- C1 (amended): `llmCall` performs no retry and no backoff at all — for
every operation behaviour it invokes the wrapped operation exactly once,
inserts no delay, returns the response content when the single invocation
succeeds, and propagates the invocation's error unchanged whether or not
it is a rate-limit error. -/
theorem llmCall_no_retry (behavior : Nat → Except LLMError LLMResponse)
    (model : String) (tokens : Nat) (prompt : String) :
    (llmCall behavior model tokens prompt).invocations = 1
    ∧ (llmCall behavior model tokens prompt).backoffDelays = []
    ∧ (∀ resp, behavior 0 = .ok resp →
        (llmCall behavior model tokens prompt).result = .ok resp.content)
    ∧ (∀ e, behavior 0 = .error e →
        (llmCall behavior model tokens prompt).result = .error e) := by
  cases h : behavior 0 <;> simp_all [llmCall]

/-- C1 witness: the amended theorem on an operation succeeding immediately. -/
theorem llmCall_no_retry_witness :
    (llmCall (fun _ => .ok { content := "hi" }) "gpt-4.1-2025-04-14" 500 "p").invocations = 1
    ∧ (llmCall (fun _ => .ok { content := "hi" }) "gpt-4.1-2025-04-14" 500 "p").result = .ok "hi" := by
  have h := llmCall_no_retry (fun _ => .ok { content := "hi" }) "gpt-4.1-2025-04-14" 500 "p"
  exact ⟨h.1, h.2.2.1 { content := "hi" } rfl⟩

/-- C5 counterexample: a completion whose content is the empty string is
returned by `llmCall` as the call's successful result, and
`PipelineService.analyzeStage` turns a missing or empty content into the
placeholder string `Analysis failed` returned as a successful stage result
— empty/missing content is passed downstream, not treated as a failure. -/
theorem content_validation_counterexample :
    (llmCall (fun _ => .ok { content := "" }) "gpt-4.1-2025-04-14" 500 "p").result = .ok ""
    ∧ analyzeStage (.ok none) = .ok "Analysis failed"
    ∧ analyzeStage (.ok (some "")) = .ok "Analysis failed" := by
  decide

/-- C5 (amended): no LLM call validates content non-emptiness — `llmCall`
returns whatever content the provider sent, the empty string included, and
`analyzeStage` substitutes the placeholder `Analysis failed` for falsy
content and succeeds; neither ever raises on empty content. -/
theorem content_not_validated (behavior : Nat → Except LLMError LLMResponse)
    (model : String) (tokens : Nat) (prompt : String) :
    (∀ resp, behavior 0 = .ok resp →
        (llmCall behavior model tokens prompt).result = .ok resp.content)
    ∧ (∀ c : Option String, (analyzeStage (.ok c)).isOk = true)
    ∧ analyzeStage (.ok none) = .ok "Analysis failed"
    ∧ analyzeStage (.ok (some "")) = .ok "Analysis failed" := by
  refine ⟨?_, ?_, rfl, rfl⟩
  · intro resp h
    simp [llmCall, h]
  · intro c
    rfl

/-- C5 witness: the amended theorem applied to a provider returning empty
content — the empty string is the call's successful result. -/
theorem content_not_validated_witness :
    (llmCall (fun _ => .ok { content := "" }) "gpt-4.1-2025-04-14" 500 "p").result = .ok "" ∧
      (analyzeStage (.ok (some "hello"))).isOk = true := by
  have h := content_not_validated (fun _ => .ok { content := "" }) "gpt-4.1-2025-04-14" 500 "p"
  exact ⟨h.1 { content := "" } rfl, h.2.1 (some "hello")⟩


/-- C9: every run consults the cost tracker exactly once, before any work;
when the tracker's accumulated cost exceeds the 50 cut-off the run aborts
immediately with the budget-exceeded error, with zero search queries and
zero LLM calls; the tracker is never consulted again mid-pipeline. -/
theorem costGate_spec (env : Env) (ct : CostTracker) (input : ProjectInput) :
    (runPipeline env ct input).2.costChecks = 1
    ∧ (50 < ct.getTotalCost →
        (runPipeline env ct input).1 = .error "Pipeline failed: Cost limit exceeded"
        ∧ (runPipeline env ct input).2.searches = 0
        ∧ (runPipeline env ct input).2.llmStageCalls = []) := by
  constructor
  · unfold runPipeline
    repeat' split
    all_goals rfl
  · intro h
    unfold runPipeline
    rw [if_pos h]
    exact ⟨rfl, rfl, rfl⟩

/-- C9 witness: a tracker with spend 51 denies the run before any work. -/
theorem costGate_spec_witness :
    (runPipeline envHappy ctOver input0).1 = .error "Pipeline failed: Cost limit exceeded"
    ∧ (runPipeline envHappy ctOver input0).2.searches = 0
    ∧ (runPipeline envHappy ctOver input0).2.llmStageCalls = []
    ∧ (runPipeline envHappy ctOver input0).2.costChecks = 1 := by
  have h := costGate_spec envHappy ctOver input0
  have h2 := h.2 (by decide)
  exact ⟨h2.1, h2.2.1, h2.2.2, h.1⟩

theorem flatMap_search_nil {search : String → List Source} :
    ∀ qs : List String, (∀ q ∈ qs, search q = []) → qs.flatMap search = [] := by
  intro qs h
  induction qs with
  | nil => simp
  | cons q rest ih =>
    rw [List.flatMap_cons, h q (List.mem_cons_self _ _),
      ih fun q hq => h q (List.mem_cons_of_mem _ hq)]
    rfl

theorem searchEnhanced_nil {search : String → List Source} {queries : List String}
    (h : ∀ q ∈ queries.take 10, search q = []) :
    (searchEnhanced search queries).1 = [] := by
  simp only [searchEnhanced]
  rw [flatMap_search_nil _ h]
  rfl

/-- C4: when every query the source-gathering stages issue returns zero
sources (and the emergency fallback query `<project name> cryptocurrency`
would also return zero — no such query exists in the code, so that
hypothesis is never consulted), the run rejects with the no-sources error
and no LLM call is made. -/
theorem noSources_spec (env : Env) (ct : CostTracker) (input : ProjectInput)
    (hcost : ¬ 50 < ct.getTotalCost)
    (hstages : ∀ q ∈ issuedQueries input, env.search q = [])
    (hfallback : env.search (input.projectName ++ " cryptocurrency") = []) :
    (runPipeline env ct input).1 = .error "Pipeline failed: No sources found for the given input"
    ∧ (runPipeline env ct input).2.llmStageCalls = [] := by
  have h1 : ∀ q ∈ (stage1Queries input).take 10, env.search q = [] := fun q hq =>
    hstages q (List.mem_append_left _ (List.mem_append_left _ (List.mem_append_left _ hq)))
  have h2 : ∀ q ∈ (stage2Queries input).take 10, env.search q = [] := fun q hq =>
    hstages q (List.mem_append_left _ (List.mem_append_left _ (List.mem_append_right _ hq)))
  have h3 : ∀ q ∈ (stage3Queries input).take 10, env.search q = [] := fun q hq =>
    hstages q (List.mem_append_left _ (List.mem_append_right _ hq))
  have h4 : ∀ q ∈ (stage4Queries input).take 10, env.search q = [] := fun q hq =>
    hstages q (List.mem_append_right _ hq)
  have hsrc : pipelineSources env input = [] := by
    simp only [pipelineSources, fetchSourcesMultiStage]
    rw [searchEnhanced_nil h1, searchEnhanced_nil h2, searchEnhanced_nil h3, searchEnhanced_nil h4]
    rfl
  have hemp : (pipelineSources env input).isEmpty = true := by rw [hsrc]; rfl
  unfold runPipeline
  rw [if_neg hcost, if_pos hemp]
  exact ⟨rfl, rfl⟩

/-- C4 witness: a search stub that returns zero results everywhere. -/
theorem noSources_spec_witness :
    (runPipeline envNoSources ct0 input0).1 =
      .error "Pipeline failed: No sources found for the given input"
    ∧ (runPipeline envNoSources ct0 input0).2.llmStageCalls = [] :=
  noSources_spec envNoSources ct0 input0 (by decide) (fun _ _ => rfl) rfl

/-- C3 counterexample: a run whose validation verdict FAILs (the review text
contains `critical`, so `metadata.validation.passed = false`), yet the
assembly ("finalReport") stage was invoked exactly once — it is not
re-invoked with the failure reasons — and the unrevised report is
accepted. -/
theorem validation_loop_counterexample :
    (runPipeline envFailVerdict ct0 input0).2.llmStageCalls
        = ["extraction", "synthesis", "speculation", "finalReport", "validation"]
    ∧ (runPipeline envFailVerdict ct0 input0).2.llmStageCalls.count "finalReport" = 1
    ∧ (runPipeline envFailVerdict ct0 input0).1.toOption.map
        (fun r => (r.report, r.metadata.validation.passed)) = some ("stage output", false) := by
  decide

/-- C3 (amended): after the single assembly ("finalReport") call, validation
reviews the report exactly once; the assembly stage is invoked exactly
once per run — in particular never more than 2 times — and the validation
outcome (`passed` iff the review text does not contain `critical`) is
recorded in the output metadata while the run still returns the report
successfully, never raising a validation error. -/
theorem validation_advisory (env : Env) (ct : CostTracker) (input : ProjectInput)
    (hcost : ¬ 50 < ct.getTotalCost)
    (hsrc : (pipelineSources env input).isEmpty = false)
    (syn sp fin val : LLMResponse)
    (h1 : env.llm (extractionInput env input).length = .ok syn)
    (h2 : env.llm ((extractionInput env input).length + 1) = .ok sp)
    (h3 : env.llm ((extractionInput env input).length + 2) = .ok fin)
    (h4 : env.llm ((extractionInput env input).length + 3) = .ok val) :
    (runPipeline env ct input).2.llmStageCalls.count "finalReport" = 1
    ∧ (runPipeline env ct input).2.llmStageCalls.count "validation" = 1
    ∧ (runPipeline env ct input).1 =
        .ok { report := fin.content
              sources := (extractedAll env input).take 25
              metadata :=
                { sourcesAnalyzed := (extractedAll env input).length
                  validation :=
                    { report := val.content
                      passed := !(jsIncludes (lowerStr val.content) "critical") }
                  confidenceScore := confidence085 } } := by
  have hrun : runPipeline env ct input =
      (.ok { report := fin.content
             sources := (extractedAll env input).take 25
             metadata :=
               { sourcesAnalyzed := (extractedAll env input).length
                 validation :=
                   { report := val.content
                     passed := !(jsIncludes (lowerStr val.content) "critical") }
                 confidenceScore := confidence085 } },
       { costChecks := 1, searches := pipelineSearchCount env input
         llmStageCalls :=
           List.replicate (extractionInput env input).length "extraction" ++
             ["synthesis", "speculation", "finalReport", "validation"] }) := by
    unfold runPipeline
    rw [if_neg hcost, if_neg (by rw [hsrc]; simp), h1, h2, h3, h4]
    dsimp only [llmContent]
  rw [hrun]
  refine ⟨?_, ?_, rfl⟩ <;>
    simp [List.count_append, List.count_replicate, List.count_cons]

/-- C3 witness: the amended theorem on the FAIL-verdict world — assembly is
called once, validation once, and the FAIL outcome lands in the metadata
of a successfully returned report. -/
theorem validation_advisory_witness :
    (runPipeline envFailVerdict ct0 input0).2.llmStageCalls.count "finalReport" = 1
    ∧ (runPipeline envFailVerdict ct0 input0).2.llmStageCalls.count "validation" = 1 := by
  have h := validation_advisory envFailVerdict ct0 input0 (by decide) (by decide)
    { content := "stage output" } { content := "stage output" }
    { content := "stage output" } { content := "Critical gaps: sections missing" }
    (by decide) (by decide) (by decide) (by decide)
  exact ⟨h.1, h.2.1⟩

theorem extractStage_length (llm : Nat → Except LLMError LLMResponse) :
    ∀ (l : List Source) (i : Nat), (extractStage llm i l).length = l.length := by
  intro l
  induction l with
  | nil => intro i; rfl
  | cons s rest ih =>
    intro i
    simp only [extractStage, List.length_cons, ih]

theorem extractStage_mem (llm : Nat → Except LLMError LLMResponse) :
    ∀ (l : List Source) (i : Nat) (e : ExtractedSource), e ∈ extractStage llm i l →
      ∃ s ∈ l, e.title = s.title ∧ e.url = s.url ∧ e.content = s.content := by
  intro l
  induction l with
  | nil => intro i e he; simp [extractStage] at he
  | cons s rest ih =>
    intro i e he
    rcases List.mem_cons.mp he with rfl | h
    · refine ⟨s, List.mem_cons_self _ _, ?_⟩
      cases hl : llm i <;> simp [extractOne, hl]
    · obtain ⟨s', hs', h'⟩ := ih (i + 1) e h
      exact ⟨s', List.mem_cons_of_mem _ hs', h'⟩

/-- C10: in every successful run the extraction stage consumes exactly the
first `min 50 n` deduplicated sources, the report's `sources` field is the
25-element initial segment (`take 25`, hence a prefix) of the extracted
list, and every extracted entry stems from one of the first 50
deduplicated sources — sources past the 50th appear in neither. -/
theorem reportSources_window (env : Env) (ct : CostTracker) (input : ProjectInput)
    (r : ResearchReport) (t : Trace)
    (h : runPipeline env ct input = (.ok r, t)) :
    r.sources = (extractedAll env input).take 25
    ∧ r.sources.length ≤ 25
    ∧ (extractedAll env input).length = min 50 (pipelineSources env input).length
    ∧ ∀ e ∈ extractedAll env input, ∃ s ∈ (pipelineSources env input).take 50,
        e.title = s.title ∧ e.url = s.url ∧ e.content = s.content := by
  have hr : r.sources = (extractedAll env input).take 25 := by
    unfold runPipeline at h
    by_cases hc : 50 < ct.getTotalCost
    · rw [if_pos hc] at h
      simp at h
    rw [if_neg hc] at h
    by_cases he : (pipelineSources env input).isEmpty
    · rw [if_pos he] at h
      simp at h
    rw [if_neg he] at h
    cases hl1 : llmContent (env.llm (extractionInput env input).length) with
    | error e => rw [hl1] at h; simp at h
    | ok syn =>
      rw [hl1] at h
      dsimp only at h
      cases hl2 : llmContent (env.llm ((extractionInput env input).length + 1)) with
      | error e => rw [hl2] at h; simp at h
      | ok sp =>
        rw [hl2] at h
        dsimp only at h
        cases hl3 : llmContent (env.llm ((extractionInput env input).length + 2)) with
        | error e => rw [hl3] at h; simp at h
        | ok fin =>
          rw [hl3] at h
          dsimp only at h
          cases hl4 : llmContent (env.llm ((extractionInput env input).length + 3)) with
          | error e => rw [hl4] at h; simp at h
          | ok val =>
            rw [hl4] at h
            dsimp only at h
            have := congrArg Prod.fst h
            simp only at this
            cases this
            rfl
  refine ⟨hr, ?_, ?_, ?_⟩
  · rw [hr]
    simp only [List.length_take]
    omega
  · unfold extractedAll
    rw [extractStage_length]
    unfold extractionInput
    rw [List.length_take]
  · intro e he
    exact extractStage_mem env.llm _ 0 e he

/-- C10 witness: the happy-path run on `input0` returns exactly the 25-cut
of the extracted list (here a single extracted source), which stems from
the first gathered source. -/
theorem reportSources_window_witness :
    happyReport.sources = (extractedAll envHappy input0).take 25
    ∧ happyReport.sources.length ≤ 25
    ∧ (extractedAll envHappy input0).length = min 50 (pipelineSources envHappy input0).length := by
  have h := reportSources_window envHappy ct0 input0 happyReport happyTrace (by decide)
  exact ⟨h.1, h.2.1, h.2.2.1⟩

end DegenDoggo
